import Mathlib

/-!
Verification of the `cssrewrite` source filter
(`src/webassets/filter/cssrewrite/__init__.py`).

The filter's own code (`_is_abs_url`, `__init__`, `input`, `replace_url`) is
embedded directly.  The URL/path helpers it calls that are part of the
repository but not included under `src/` (`urlpath.relpath`, `urlpath.pathjoin`,
`urlpath.relpathto`, `base.addsep`, `base.path2url`,
`webassets.utils.common_path_prefix`, `Environment.absurl`) are modelled from
the specification; each such definition carries a doc comment saying so.
The Python standard library functions `urlparse.urljoin`, `os.path.join` and
`os.path.normpath` are modelled from their documented semantics, restricted to
the POSIX, path-style and `http(s)`/protocol-relative URLs this filter
manipulates.

Strings are Lean `String`s; all operations work on the code-point list
`String.data`, matching Python's code-point string semantics.
-/

namespace CssRewrite

/-- Python `str.startswith(p)`: code-point level prefix test. -/
def pyStartswith (s p : String) : Bool :=
  p.data.isPrefixOf s.data

/-- Python slice `s[n:]` on code points. -/
def pyDropStr (s : String) (n : Nat) : String :=
  ⟨s.data.drop n⟩

/-- Python `len(s)` in code points. -/
def pyLen (s : String) : Nat :=
  s.data.length

/-- Split a character list at every slash (Python `"…".split('/')` on the
character level); always returns at least one segment. -/
def splitCh : List Char → List (List Char)
  | [] => [[]]
  | c :: cs =>
    if c = '/' then [] :: splitCh cs
    else
      match splitCh cs with
      | [] => [[c]]
      | s :: rest => (c :: s) :: rest

/-- Join character-list segments with slashes (Python `'/'.join(…)`). -/
def joinCh : List (List Char) → List Char
  | [] => []
  | [s] => s
  | s :: rest => s ++ '/' :: joinCh rest

/-- Split a URL string at every slash. -/
def splitSlash (s : String) : List String :=
  (splitCh s.data).map (fun l => ⟨l⟩)

/-- Join URL segments with slashes. -/
def joinSlash (L : List String) : String :=
  ⟨joinCh (L.map String.data)⟩

theorem splitCh_ne_nil (l : List Char) : splitCh l ≠ [] := by
  cases l with
  | nil => simp [splitCh]
  | cons c cs =>
    by_cases h : c = '/'
    · simp [splitCh, h]
    · simp only [splitCh, if_neg h]
      cases splitCh cs <;> simp

theorem joinCh_splitCh (l : List Char) : joinCh (splitCh l) = l := by
  induction l with
  | nil => rfl
  | cons c cs ih =>
    by_cases h : c = '/'
    · subst h
      cases hcs : splitCh cs with
      | nil => exact absurd hcs (splitCh_ne_nil cs)
      | cons s rest =>
        rw [hcs] at ih
        simp only [splitCh, if_pos rfl, hcs, joinCh, List.nil_append]
        rw [ih]
    · cases hcs : splitCh cs with
      | nil => exact absurd hcs (splitCh_ne_nil cs)
      | cons s rest =>
        rw [hcs] at ih
        simp only [splitCh, if_neg h, hcs]
        cases rest with
        | nil => simp only [joinCh] at ih ⊢; rw [ih]
        | cons t r =>
          simp only [joinCh, List.cons_append] at ih ⊢
          rw [ih]

theorem splitCh_no_slash (l : List Char) (h : '/' ∉ l) : splitCh l = [l] := by
  induction l with
  | nil => rfl
  | cons c cs ih =>
    have hc : c ≠ '/' := by
      intro e; exact h (by rw [e]; exact List.mem_cons_self '/' cs)
    have h' : '/' ∉ cs := fun m => h (List.mem_cons_of_mem _ m)
    simp only [splitCh, if_neg hc, ih h']

theorem splitCh_append (s m : List Char) (h : '/' ∉ s) :
    splitCh (s ++ '/' :: m) = s :: splitCh m := by
  induction s with
  | nil => simp [splitCh]
  | cons c cs ih =>
    have hc : c ≠ '/' := by
      intro e; exact h (by rw [e]; exact List.mem_cons_self '/' cs)
    have h' : '/' ∉ cs := fun m2 => h (List.mem_cons_of_mem _ m2)
    simp only [List.cons_append, splitCh, if_neg hc, List.append_eq, ih h']

theorem splitCh_joinCh (L : List (List Char)) (hL : L ≠ [])
    (h : ∀ s ∈ L, '/' ∉ s) : splitCh (joinCh L) = L := by
  induction L with
  | nil => exact absurd rfl hL
  | cons s rest ih =>
    cases rest with
    | nil =>
      simpa [joinCh] using splitCh_no_slash s (h s (List.mem_cons_self s []))
    | cons t r =>
      have hs : '/' ∉ s := h s (List.mem_cons_self s (t :: r))
      simp only [joinCh]
      rw [splitCh_append s _ hs,
        ih (by simp) (fun x hx => h x (List.mem_cons_of_mem _ hx))]

theorem splitCh_mem_no_slash (l : List Char) : ∀ s ∈ splitCh l, '/' ∉ s := by
  induction l with
  | nil =>
    intro s hs
    simp [splitCh] at hs
    simp [hs]
  | cons c cs ih =>
    intro s hs
    by_cases h : c = '/'
    · simp only [splitCh, if_pos h] at hs
      rcases List.mem_cons.mp hs with h1 | h2
      · simp [h1]
      · exact ih s h2
    · simp only [splitCh, if_neg h] at hs
      cases hcs : splitCh cs with
      | nil => exact absurd hcs (splitCh_ne_nil cs)
      | cons t rest =>
        rw [hcs] at hs
        rcases List.mem_cons.mp hs with h1 | h2
        · subst h1
          intro hm
          rcases List.mem_cons.mp hm with h3 | h4
          · exact h h3.symm
          · exact ih t (by rw [hcs]; exact List.mem_cons_self t rest) h4
        · exact ih s (by rw [hcs]; exact List.mem_cons_of_mem _ h2)

theorem joinSlash_splitSlash (s : String) : joinSlash (splitSlash s) = s := by
  unfold joinSlash splitSlash
  rw [List.map_map]
  have he : (String.data ∘ fun l => (⟨l⟩ : String)) = id := rfl
  rw [he, List.map_id, joinCh_splitCh]

theorem splitSlash_joinSlash (L : List String) (hL : L ≠ [])
    (h : ∀ s ∈ L, '/' ∉ s.data) : splitSlash (joinSlash L) = L := by
  unfold splitSlash joinSlash
  rw [splitCh_joinCh (L.map String.data) (by simpa using hL)
    (by
      intro s hs
      rcases List.mem_map.mp hs with ⟨t, ht, rfl⟩
      exact h t ht)]
  rw [List.map_map]
  have he : ((fun l => (⟨l⟩ : String)) ∘ String.data) = id := rfl
  rw [he, List.map_id]

theorem splitSlash_mem_no_slash (s : String) :
    ∀ t ∈ splitSlash s, '/' ∉ t.data := by
  intro t ht
  rcases List.mem_map.mp ht with ⟨l, hl, rfl⟩
  exact splitCh_mem_no_slash s.data l hl

theorem splitSlash_ne_nil (s : String) : splitSlash s ≠ [] := by
  unfold splitSlash
  simpa using splitCh_ne_nil s.data

/-- Length of the longest common segment-wise prefix of two segment lists. -/
def commonPrefixLen : List String → List String → Nat
  | a :: as, b :: bs => if a = b then commonPrefixLen as bs + 1 else 0
  | _, _ => 0

theorem commonPrefixLen_append (l m : List String) :
    commonPrefixLen l (l ++ m) = l.length := by
  induction l with
  | nil => rfl
  | cons a as ih => simp [commonPrefixLen, ih]

/-- Drop lone-dot segments the way the Python standard library `urljoin` does:
a trailing `.` becomes an empty segment, every other `.` is removed. -/
def removeLoneDots (l : List String) : List String :=
  (if l.getLast? = some "." then l.dropLast ++ [""] else l).filter
    (fun s => s != ".")

/-- One step of the standard library `urljoin` parent-directory loop: delete the
leftmost adjacent pair `x, ".."` where `x` is neither empty nor `".."` and the
`".."` is not the final segment. -/
def collapseStep : List String → Option (List String)
  | [] => none
  | [_] => none
  | a :: b :: rest =>
    if b = ".." ∧ a ≠ "" ∧ a ≠ ".." ∧ rest ≠ [] then some rest
    else (collapseStep (b :: rest)).map (fun l => a :: l)

/-- Iterate `collapseStep` with explicit fuel. -/
def collapseFuel : Nat → List String → List String
  | 0, l => l
  | n + 1, l =>
    match collapseStep l with
    | some l' => collapseFuel n l'
    | none => l

/-- Run the parent-directory loop to its fixpoint; fuel `l.length` suffices
because every step removes two segments. -/
def collapseAll (l : List String) : List String :=
  collapseFuel l.length l

/-- Final trailing-`..` fixups of the standard library `urljoin`. -/
def fixTrail (l : List String) : List String :=
  if l = ["", ".."] then ["", ""]
  else if 2 ≤ l.length ∧ l.getLast? = some ".." then l.dropLast.dropLast ++ [""]
  else l

/-- Full `.`/`..` resolution of the standard library `urljoin`. -/
def resolveDots (l : List String) : List String :=
  fixTrail (collapseAll (removeLoneDots l))

/-- Test for the two URL schemes the filter ever distinguishes. -/
def hasHttpScheme (s : String) : Bool :=
  pyStartswith s "http://" || pyStartswith s "https://"

/-- Model of the Python standard library `urlparse.urljoin`, restricted to the
path-style, `http(s)` and protocol-relative URLs this filter manipulates:
an empty base yields the url, an empty url yields the base, a scheme-qualified
or protocol-relative or root-relative url is returned as-is, and a relative url
is resolved against the base's directory with `.`/`..` processing. -/
def urljoin (base url : String) : String :=
  if base = "" then url
  else if url = "" then base
  else if hasHttpScheme url then url
  else if pyStartswith url "//" then url
  else if pyStartswith url "/" then url
  else joinSlash (resolveDots ((splitSlash base).dropLast ++ splitSlash url))

/-- Segment-level core of `relpath`: `..` ascents from the base directory to
the common ancestor, then the remaining target segments; with no common
ancestor the target segments are returned whole. -/
def relpathSegs (bdir tsegs : List String) : String :=
  if commonPrefixLen bdir tsegs.dropLast = 0 then joinSlash tsegs
  else
    joinSlash
      (List.replicate (bdir.length - commonPrefixLen bdir tsegs.dropLast) ".." ++
        tsegs.drop (commonPrefixLen bdir tsegs.dropLast))

/-- Modelled from the spec: `relativeUrl(fromUrl, toUrl)` of section 4.1 — the
repository's `urlpath.relpath` (`webassets/filter/cssrewrite/urlpath.py`) is
not included under `src/`.  Computes the minimal relative path (with `..`
ascents as needed) from `base`'s location to `target`, falling back to the
absolute-style `target` when the two share no common ancestor. -/
def relpath (base target : String) : String :=
  relpathSegs (splitSlash base).dropLast (splitSlash target)

/-- Modelled from the spec (section 4.4a): `urlpath.pathjoin` joins a URL
against the source file's directory; the repository's `urlpath.py` is not
included under `src/`.  Same resolution semantics as `urljoin`. -/
def urlpathJoin (base url : String) : String :=
  urljoin base url

/-- Modelled from the spec (section 4.1 `toUrlPath`): convert a filesystem path
to a forward-slash URL fragment; on POSIX paths this is the identity.  The
repository's `base.path2url` is not included under `src/`. -/
def path2url (p : String) : String :=
  p

/-- Modelled from the spec (section 3, Project Root): normalize a path with a
trailing separator.  The repository's `base.addsep` is not included under
`src/`. -/
def addsep (p : String) : String :=
  if p ≠ "" ∧ p.data.getLast? ≠ some '/' then p ++ "/" else p

/-- Segment-wise common prefix of two segment lists. -/
def commonLevels : List String → List String → List String
  | a :: as, b :: bs => if a = b then a :: commonLevels as bs else []
  | _, _ => []

/-- Modelled from the spec (section 4.1 `commonPrefix`): the longest
directory-boundary aligned common prefix of two paths.  The repository's
`webassets.utils.common_path_prefix` is not included under `src/`. -/
def commonPathPfx (p q : String) : String :=
  joinSlash (commonLevels (splitSlash p) (splitSlash q))

/-- Model of POSIX `os.path.join` for two arguments. -/
def osJoin (a b : String) : String :=
  if pyStartswith b "/" then b
  else if a = "" then b
  else if a.data.getLast? = some '/' then a ++ b
  else a ++ "/" ++ b

/-- Component loop of POSIX `os.path.normpath` (accumulator is reversed). -/
def normpathFold (absRoot : Bool) : List String → List String → List String
  | acc, [] => acc.reverse
  | acc, c :: cs =>
    if c = "" ∨ c = "." then normpathFold absRoot acc cs
    else if c = ".." then
      match acc with
      | [] =>
        if absRoot then normpathFold absRoot [] cs
        else normpathFold absRoot [".."] cs
      | a :: rest =>
        if a = ".." then normpathFold absRoot (".." :: a :: rest) cs
        else normpathFold absRoot rest cs
    else normpathFold absRoot (c :: acc) cs

/-- Model of POSIX `os.path.normpath`. -/
def normpath (p : String) : String :=
  if p = "" then "."
  else
    let slashes : Nat :=
      if pyStartswith p "//" ∧ ¬ pyStartswith p "///" then 2
      else if pyStartswith p "/" then 1
      else 0
    let comps := normpathFold (0 < slashes) [] (splitSlash p)
    let s := (⟨List.replicate slashes '/'⟩ : String) ++ joinSlash comps
    if s = "" then "." else s

theorem mem_of_getLast?_eq {α : Type} :
    ∀ (l : List α) (a : α), l.getLast? = some a → a ∈ l := by
  intro l
  induction l with
  | nil => intro a h; simp [List.getLast?] at h
  | cons x xs ih =>
    intro a h
    cases xs with
    | nil =>
      simp [List.getLast?] at h
      simp [h]
    | cons y ys =>
      rw [List.getLast?_cons_cons] at h
      exact List.mem_cons_of_mem _ (ih a h)

theorem removeLoneDots_id (l : List String) (h : ∀ s ∈ l, s ≠ ".") :
    removeLoneDots l = l := by
  unfold removeLoneDots
  rw [if_neg (fun hg => absurd rfl (h "." (mem_of_getLast?_eq l "." hg)))]
  apply List.filter_eq_self.mpr
  intro a ha
  simpa using h a ha

theorem collapseStep_none (l : List String) (h : ∀ s ∈ l, s ≠ "..") :
    collapseStep l = none := by
  induction l with
  | nil => rfl
  | cons a t ih =>
    cases t with
    | nil => rfl
    | cons b rest =>
      have hb : b ≠ ".." := h b (List.mem_cons_of_mem _ (List.mem_cons_self b rest))
      simp only [collapseStep]
      rw [ih (fun s hs => h s (List.mem_cons_of_mem _ hs)), if_neg]
      · rfl
      · rintro ⟨hc, -⟩
        exact hb hc

theorem collapseAll_id (l : List String) (h : ∀ s ∈ l, s ≠ "..") :
    collapseAll l = l := by
  unfold collapseAll
  cases hn : l.length with
  | zero => rfl
  | succ n => simp [collapseFuel, collapseStep_none l h]

theorem fixTrail_id (l : List String) (h : ∀ s ∈ l, s ≠ "..") :
    fixTrail l = l := by
  unfold fixTrail
  rw [if_neg, if_neg]
  · rintro ⟨hlen, hlast⟩
    exact absurd rfl (h ".." (mem_of_getLast?_eq l ".." hlast))
  · intro he
    exact absurd rfl (h ".." (by rw [he]; simp))

theorem resolveDots_id (l : List String) (h : ∀ s ∈ l, s ≠ "." ∧ s ≠ "..") :
    resolveDots l = l := by
  unfold resolveDots
  rw [removeLoneDots_id l (fun s hs => (h s hs).1),
    collapseAll_id l (fun s hs => (h s hs).2),
    fixTrail_id l (fun s hs => (h s hs).2)]

/-- Python exceptions the embedded code can raise. -/
inductive PyErr where
  | attributeError (n : String)
  | resolverError (msg : String)
deriving DecidableEq

/-- The versioned-asset resolver capability
(`ExternalAssets.versioned_folder`); raising is modelled as `Except.error`. -/
abbrev Resolver := String → Except PyErr String

/-- The `replace` constructor argument: Python `False`, Python `None`, or a
rule mapping (kept as an ordered association list, matching the ordered-dict
iteration of `input`). -/
inductive ReplaceConfig where
  | pyFalse
  | pyNone
  | rules (rs : List (String × String))
deriving DecidableEq

/-- The `external` constructor argument: Python `False`, Python `None`, or the
name of an `ExternalAssets` object registered with the environment. -/
inductive ExternalConfig where
  | pyFalse
  | pyNone
  | name (n : String)
deriving DecidableEq

/-- The slice of `self.env` the filter reads: project root directory, base
publish URL (`None`/empty string falsy, per Python truthiness), and the
registered `ExternalAssets` objects keyed by name. -/
structure Env where
  directory : String
  url : Option String
  assets : String → Resolver

/-- The filter's per-file state as read by `input` and `replace_url`:
constructor fields, the lazily-created `replace_dict` and `external_assets`
attributes (`none` models the attribute never having been assigned), the
source/output contexts, and the environment. -/
structure FilterState where
  replace : ReplaceConfig
  external : ExternalConfig
  replace_dict : Option (List (String × String))
  external_assets : Option Resolver
  source_url : String
  source_path : String
  output_url : String
  output_path : String
  env : Env

/-- The two fields `CSSRewriteFilter.__init__` assigns. -/
structure InitFields where
  replace : ReplaceConfig
  external : ExternalConfig
deriving DecidableEq

/-- Embedding of `CSSRewriteFilter.__init__` (lines 54-57): it stores both
arguments unconditionally, performs no validation, and cannot fail; the
`Except` result type makes failure expressible. -/
def init (replace : ReplaceConfig) (external : ExternalConfig) :
    Except PyErr InitFields :=
  .ok { replace := replace, external := external }

/-- Embedding of `CSSRewriteFilter._is_abs_url` (lines 82-83). -/
def is_abs_url (url : String) : Bool :=
  pyStartswith url "/" &&
    (pyStartswith url "http://" || pyStartswith url "https://")

/-- Embedding of the `replace_dict` construction in `CSSRewriteFilter.input`
(lines 67-75): each configured directory is joined to the project root,
normalized, suffixed with a separator, and cut after the common prefix with
the root to form a URL prefix. -/
def buildReplaceDict (directory : String) (rs : List (String × String)) :
    List (String × String) :=
  let root := addsep directory
  rs.map (fun p =>
    let repldir := addsep (normpath (osJoin root p.1))
    (path2url (pyDropStr repldir (pyLen (commonPathPfx root repldir))), p.2))

/-- Embedding of `CSSRewriteFilter.input`'s state preparation (lines 63-78):
`replace_dict` is built only when `replace` is neither `False` nor `None`;
`external_assets` is bound only when `external` is neither `False` nor
`None`. -/
def input (st : FilterState) : FilterState :=
  let st1 :=
    match st.replace with
    | .rules rs =>
      { st with replace_dict := some (buildReplaceDict st.env.directory rs) }
    | _ => st
  match st1.external with
  | .name n => { st1 with external_assets := some (st1.env.assets n) }
  | _ => st1

/-- Modelled from the spec (section 4.4d): anchor a fragment under the
configured base publish URL; `Environment.absurl` is not included under
`src/`. -/
def absurl (e : Env) (fragment : String) : String :=
  urljoin (addsep (e.url.getD "")) fragment

/-- Modelled from the spec (sections 4.4d-e): the relative path from the
output file's directory to a target URL, the output path first taken relative
to the project root; the repository's `urlpath.relpathto` is not included
under `src/`. -/
def relpathto (root outPath target : String) : String :=
  relpath (path2url (pyDropStr outPath (pyLen root))) target

/-- Embedding of the relocation loop in `CSSRewriteFilter.replace_url`
(lines 88-93): rules are tried in order; on the first prefix match of the
source-resolved URL, the prefix is replaced by the substitution and the loop
stops; with no match the original `url` is returned. -/
def replaceLoop (source_url : String) :
    List (String × String) → String → String
  | [], url => url
  | (to_replace, sub) :: rest, url =>
    let targeturl := urljoin source_url url
    if pyStartswith targeturl to_replace then
      sub ++ pyDropStr targeturl (pyLen to_replace)
    else replaceLoop source_url rest url

/-- Embedding of the external-mode body of `CSSRewriteFilter.replace_url`
(lines 100-123), entered when the URL is not classified absolute: the URL is
joined against `source_path`, resolved through `external_assets`, and the
replacement is chosen from `env.url`; the `replacement is None` fallback of
lines 119-121 is kept even though every branch assigns a replacement. -/
def externalCore (st : FilterState) (url : String) : Except PyErr String :=
  match st.external_assets with
  | none => .error (.attributeError "external_assets")
  | some va =>
    let file_path := urlpathJoin st.source_path url
    match va file_path with
    | .error e => .error e
    | .ok asset_path =>
      let replacement : Option String :=
        match st.env.url with
        | some u =>
          if u = "" then some (relpathto st.env.directory st.output_path asset_path)
          else if pyStartswith u "http://" || pyStartswith u "https://" ||
              pyStartswith u "//" then
            some (urljoin u asset_path)
          else
            some (relpathto st.env.directory st.output_path (absurl st.env asset_path))
        | none => some (relpathto st.env.directory st.output_path asset_path)
      match replacement with
      | none => .ok (relpath st.output_url (urljoin st.source_url url))
      | some r => .ok r

/-- Embedding of `CSSRewriteFilter.replace_url` (lines 85-134): relocation
mode whenever `replace is not False` (reading an absent `replace_dict` raises
`AttributeError`), otherwise external mode whenever `external is not False`,
otherwise the default relative rewrite; the latter two keep URLs classified
absolute by `_is_abs_url` unchanged. -/
def replace_url (st : FilterState) (url : String) : Except PyErr String :=
  match st.replace with
  | .pyFalse =>
    match st.external with
    | .pyFalse =>
      if is_abs_url url then .ok url
      else .ok (relpath st.output_url (urljoin st.source_url url))
    | _ =>
      if is_abs_url url then .ok url
      else externalCore st url
  | _ =>
    match st.replace_dict with
    | none => .error (.attributeError "replace_dict")
    | some rd => .ok (replaceLoop st.source_url rd url)

theorem pyStartswith_head (s p : String) (c d : Char) (cs ds : List Char)
    (hs : s.data = c :: cs) (hp : p.data = d :: ds) (hcd : c ≠ d) :
    pyStartswith s p = false := by
  unfold pyStartswith
  rw [hs, hp]
  have hne : (d == c) = false := beq_eq_false_iff_ne.mpr (fun h => hcd h.symm)
  simp [List.isPrefixOf, hne]

/-- Core fact behind the filter's absolute-URL handling: the conjunction in
`_is_abs_url` is unsatisfiable, so the test returns `False` on every string. -/
theorem is_abs_url_eq_false (url : String) : is_abs_url url = false := by
  unfold is_abs_url
  cases hd : url.data with
  | nil =>
    have h1 : pyStartswith url "/" = false := by
      unfold pyStartswith
      rw [hd]
      rfl
    rw [h1]
    rfl
  | cons c cs =>
    by_cases hc : c = '/'
    · have h2 : pyStartswith url "http://" = false :=
        pyStartswith_head url "http://" c 'h' cs "ttp://".data hd rfl
          (by rw [hc]; decide)
      have h3 : pyStartswith url "https://" = false :=
        pyStartswith_head url "https://" c 'h' cs "ttps://".data hd rfl
          (by rw [hc]; decide)
      rw [h2, h3]
      simp
    · have h1 : pyStartswith url "/" = false :=
        pyStartswith_head url "/" c '/' cs [] hd rfl hc
      rw [h1]
      rfl

theorem pyStartswith_two_slash (u : String) (h : pyStartswith u "/" = false) :
    pyStartswith u "//" = false := by
  unfold pyStartswith at h ⊢
  cases hd : u.data with
  | nil => rfl
  | cons c cs =>
    rw [hd] at h
    have hs : ("/" : String).data = ['/'] := rfl
    rw [hs] at h
    simp only [List.isPrefixOf, Bool.and_true] at h
    have hss : ("//" : String).data = ['/', '/'] := rfl
    rw [hss]
    simp [List.isPrefixOf, h]

/-- Mode dispatch of `replace_url` in default mode. -/
theorem replace_url_default (st : FilterState) (url : String)
    (h1 : st.replace = .pyFalse) (h2 : st.external = .pyFalse) :
    replace_url st url =
      .ok (relpath st.output_url (urljoin st.source_url url)) := by
  obtain ⟨rep, ext, rd, ea, su, sp, ou, op, env⟩ := st
  dsimp at h1 h2
  subst h1
  subst h2
  unfold replace_url
  rw [is_abs_url_eq_false]
  rfl

/-- Mode dispatch of `replace_url` in external mode. -/
theorem replace_url_external (st : FilterState) (url : String)
    (h1 : st.replace = .pyFalse) (h2 : st.external ≠ .pyFalse) :
    replace_url st url = externalCore st url := by
  obtain ⟨rep, ext, rd, ea, su, sp, ou, op, env⟩ := st
  dsimp at h1 h2
  subst h1
  cases ext with
  | pyFalse => exact absurd rfl h2
  | pyNone =>
    unfold replace_url
    rw [is_abs_url_eq_false]
    rfl
  | name n =>
    unfold replace_url
    rw [is_abs_url_eq_false]
    rfl

/-- Mode dispatch of `replace_url` in relocation mode with `replace_dict`
present. -/
theorem replace_url_reloc (st : FilterState) (url : String)
    (rs rd : List (String × String))
    (h1 : st.replace = .rules rs) (h2 : st.replace_dict = some rd) :
    replace_url st url = .ok (replaceLoop st.source_url rd url) := by
  obtain ⟨rep, ext, rdf, ea, su, sp, ou, op, env⟩ := st
  dsimp at h1 h2
  subst h1
  subst h2
  rfl

theorem replaceLoop_no_match (su : String) (rd : List (String × String))
    (url : String)
    (h : ∀ p ∈ rd, pyStartswith (urljoin su url) p.1 = false) :
    replaceLoop su rd url = url := by
  induction rd with
  | nil => rfl
  | cons p rest ih =>
    obtain ⟨tr, sb⟩ := p
    have hh : pyStartswith (urljoin su url) tr = false :=
      h (tr, sb) (List.mem_cons_self _ rest)
    simp only [replaceLoop, hh, Bool.false_eq_true, if_false]
    exact ih (fun q hq => h q (List.mem_cons_of_mem _ hq))

/-- Reduction of `urljoin` on a relative url against a nonempty base. -/
theorem urljoin_relative (base u : String) (hb : base ≠ "") (hne : u ≠ "")
    (hscheme : hasHttpScheme u = false) (hslash : pyStartswith u "/" = false) :
    urljoin base u =
      joinSlash (resolveDots ((splitSlash base).dropLast ++ splitSlash u)) := by
  unfold urljoin
  rw [if_neg hb, if_neg hne, if_neg (by simp [hscheme]),
    if_neg (by simp [pyStartswith_two_slash u hslash]),
    if_neg (by simp [hslash])]

theorem dropLast_append_ne {α : Type} (l m : List α) (hm : m ≠ []) :
    (l ++ m).dropLast = l ++ m.dropLast := by
  induction l with
  | nil => rfl
  | cons a as ih =>
    have hne : as ++ m ≠ [] := by
      intro he
      exact hm (List.append_eq_nil.mp he).2
    cases hx : as ++ m with
    | nil => exact absurd hx hne
    | cons x xs =>
      rw [List.cons_append, hx, List.dropLast_cons₂, ← hx, ih]
      rfl

theorem dropLast_single_append {α : Type} (l : List α) (a : α) :
    (l ++ [a]).dropLast = l := by
  rw [dropLast_append_ne l [a] (by simp)]
  simp

/-- An environment whose registered assets are never consulted. -/
def plainEnv (dir : String) (u : Option String) : Env :=
  { directory := dir, url := u, assets := fun _ => fun _ => .ok "" }

/-- External mode, no base publish URL, resolver returning a fixed versioned
path. -/
def c1State : FilterState :=
  { replace := .pyFalse, external := .name "external_assets",
    replace_dict := none,
    external_assets := some (fun _ => .ok "/assets/v1/i.png"),
    source_url := "/proj/css/a.css", source_path := "/proj/css/a.css",
    output_url := "/proj/build/out.css", output_path := "/proj/build/out.css",
    env := plainEnv "/proj" none }

/-- C1: the claim that every scheme-qualified URL is returned unchanged under
every mode fails on the code in versioned-external mode: `_is_abs_url` is
`False` on every string (its conjunction is unsatisfiable), so
`http://images.example.com/i.png` is pushed through the versioned resolver and
rewritten to `../assets/v1/i.png` instead of being kept, contradicting the
code's own comment that an absolute path is kept. -/
theorem C1_scheme_url_rewritten_in_external_mode :
    is_abs_url "http://images.example.com/i.png" = false ∧
    replace_url c1State "http://images.example.com/i.png" =
      .ok "../assets/v1/i.png" ∧
    ("../assets/v1/i.png" : String) ≠ "http://images.example.com/i.png" :=
  ⟨rfl, rfl, by decide⟩

/-- C2 counterexample: constructing the filter with both a relocation rule set
and an external resolver name succeeds and stores both fields; nothing is
rejected at construction time. -/
theorem C2_construction_succeeds :
    init (.rules [("old/", "/new/")]) (.name "external_assets") =
      .ok ⟨.rules [("old/", "/new/")], .name "external_assets"⟩ :=
  rfl

/-- C2 (amended): `__init__` never fails, whatever combination of `replace`
and `external` is supplied; when both are configured, `replace_url` runs the
relocation branch and the external resolver is ignored. -/
theorem C2_no_rejection_replace_precedence (rs : List (String × String))
    (ext : ExternalConfig) :
    init (.rules rs) ext = .ok ⟨.rules rs, ext⟩ ∧
    ∀ (st : FilterState) (url : String) (rd : List (String × String)),
      st.replace = .rules rs → st.replace_dict = some rd →
      replace_url st url = .ok (replaceLoop st.source_url rd url) := by
  refine ⟨rfl, ?_⟩
  intro st url rd h1 h2
  exact replace_url_reloc st url rs rd h1 h2

/-- Relocation mode with both `replace` and `external` configured. -/
def c2State : FilterState :=
  { replace := .rules [("old/", "/new/")], external := .name "external_assets",
    replace_dict := some [("/old/", "/new/")],
    external_assets := none,
    source_url := "/a.css", source_path := "/a.css",
    output_url := "/out.css", output_path := "/out.css",
    env := plainEnv "/proj" none }

theorem C2_witness :
    init (.rules [("old/", "/new/")]) (.name "external_assets") =
      .ok ⟨.rules [("old/", "/new/")], .name "external_assets"⟩ ∧
    replace_url c2State "old/a.png" = .ok "/new/a.png" := by
  have h := C2_no_rejection_replace_precedence [("old/", "/new/")]
    (.name "external_assets")
  refine ⟨h.1, ?_⟩
  have h2 := h.2 c2State "old/a.png" [("/old/", "/new/")] rfl rfl
  exact h2.trans (by rfl)

/-- Relocation mode whose single rule matches nothing relevant. -/
def c3State : FilterState :=
  { replace := .rules [("zzz/", "/x/")], external := .pyFalse,
    replace_dict := some [("/zzz/", "/x/")],
    external_assets := none,
    source_url := "/proj/css/a.css", source_path := "/proj/css/a.css",
    output_url := "/proj/build/out.css", output_path := "/proj/build/out.css",
    env := plainEnv "/proj" none }

/-- C3 counterexample: the source-resolved form of `../img/x.png` is
`/proj/img/x.png`, no rule matches it, and `replace_url` returns the original
`../img/x.png` — not the source-resolved form the claim requires. -/
theorem C3_counterexample :
    urljoin c3State.source_url "../img/x.png" = "/proj/img/x.png" ∧
    replace_url c3State "../img/x.png" = .ok "../img/x.png" ∧
    ("../img/x.png" : String) ≠ "/proj/img/x.png" :=
  ⟨rfl, rfl, by decide⟩

/-- C3 (amended): in relocation mode, when the source-resolved form of the URL
matches no rule prefix, `replace_url` returns the original URL string
verbatim; the resolve-to-absolute step is local to rule matching and its
textual change is not preserved in the output. -/
theorem C3_no_match_returns_original_url (st : FilterState) (url : String)
    (rs rd : List (String × String))
    (h1 : st.replace = .rules rs) (h2 : st.replace_dict = some rd)
    (h : ∀ p ∈ rd, pyStartswith (urljoin st.source_url url) p.1 = false) :
    replace_url st url = .ok url := by
  rw [replace_url_reloc st url rs rd h1 h2,
    replaceLoop_no_match st.source_url rd url h]

theorem C3_witness : replace_url c3State "../img/x.png" = .ok "../img/x.png" := by
  have h := C3_no_match_returns_original_url c3State "../img/x.png"
    [("zzz/", "/x/")] [("/zzz/", "/x/")] rfl rfl (by decide)
  exact h

/-- C4: in relocation mode rules are tried in registration order and only the
first matching rule is applied: whenever the head rule's prefix matches the
source-resolved URL, the result is the head substitution applied to the
matched suffix, whatever (possibly overlapping) rules follow. -/
theorem C4_first_match_wins (st : FilterState) (url p1 s1 : String)
    (rs rest : List (String × String))
    (h1 : st.replace = .rules rs)
    (h2 : st.replace_dict = some ((p1, s1) :: rest))
    (hm : pyStartswith (urljoin st.source_url url) p1 = true) :
    replace_url st url =
      .ok (s1 ++ pyDropStr (urljoin st.source_url url) (pyLen p1)) := by
  rw [replace_url_reloc st url rs ((p1, s1) :: rest) h1 h2]
  simp only [replaceLoop, hm, if_true]

/-- Relocation mode with the overlapping rule set of the claim, before
`input` has normalized it into `replace_dict`. -/
def c4Init : FilterState :=
  { replace := .rules [("a/b/", "/x"), ("a/", "/y")], external := .pyFalse,
    replace_dict := none, external_assets := none,
    source_url := "/s.css", source_path := "/s.css",
    output_url := "/out.css", output_path := "/out.css",
    env := plainEnv "/proj" none }

theorem C4_witness :
    (input c4Init).replace_dict = some [("/a/b/", "/x"), ("/a/", "/y")] ∧
    replace_url (input c4Init) "a/b/c.png" = .ok "/xc.png" := by
  refine ⟨rfl, ?_⟩
  have h := C4_first_match_wins (input c4Init) "a/b/c.png" "/a/b/" "/x"
    [("a/b/", "/x"), ("a/", "/y")] [("/a/", "/y")] rfl rfl rfl
  exact h.trans (by rfl)

theorem commonPrefixLen_nil (l : List String) : commonPrefixLen [] l = 0 := by
  cases l <;> rfl

theorem relpathSegs_append (d us : List String) (hus : us ≠ []) :
    relpathSegs d (d ++ us) = joinSlash us := by
  unfold relpathSegs
  rw [dropLast_append_ne d us hus, commonPrefixLen_append]
  by_cases hd : d.length = 0
  · rw [if_pos hd]
    have hdn : d = [] := List.length_eq_zero.mp hd
    subst hdn
    rfl
  · rw [if_neg hd, Nat.sub_self, List.replicate, List.nil_append, List.drop_left]

/-- Default mode with source and output in the same directory. -/
def c6State : FilterState :=
  { replace := .pyFalse, external := .pyFalse,
    replace_dict := none, external_assets := none,
    source_url := "/d/a.css", source_path := "/d/a.css",
    output_url := "/d/out.css", output_path := "/d/out.css",
    env := plainEnv "/d" none }

/-- C6 counterexample: with source `/d/a.css` and output `/d/out.css` in the
same directory, the relative URL `./x.png` is rewritten to `x.png`, not
returned unchanged: resolving against the source normalizes away the `./`. -/
theorem C6_counterexample :
    replace_url c6State "./x.png" = .ok "x.png" ∧
    ("x.png" : String) ≠ "./x.png" :=
  ⟨rfl, by decide⟩

/-- C6 (amended): in default mode, a relative URL that is nonempty, has no
scheme, does not start with a slash, and contains no `.` or `..` segments is
returned unchanged whenever the source and output URLs sit in the same
directory. -/
theorem C6_same_directory_identity (st : FilterState) (d : List String)
    (f1 f2 u : String)
    (hrep : st.replace = .pyFalse) (hext : st.external = .pyFalse)
    (hs : splitSlash st.source_url = d ++ [f1])
    (ho : splitSlash st.output_url = d ++ [f2])
    (hne : u ≠ "") (hslash : pyStartswith u "/" = false)
    (hscheme : hasHttpScheme u = false)
    (hdots : ∀ s ∈ d ++ splitSlash u, s ≠ "." ∧ s ≠ "..") :
    replace_url st u = .ok u := by
  rw [replace_url_default st u hrep hext]
  have husne : splitSlash u ≠ [] := splitSlash_ne_nil u
  by_cases hb : st.source_url = ""
  · have hd0 : d = [] := by
      rw [hb] at hs
      have hone : splitSlash "" = ([""] : List String) := rfl
      rw [hone] at hs
      have hlen := congrArg List.length hs
      simp only [List.length_append, List.length_singleton,
        List.length_cons, List.length_nil] at hlen
      exact List.length_eq_zero.mp (by omega)
    have h1 : urljoin st.source_url u = u := by
      rw [hb]
      unfold urljoin
      rw [if_pos rfl]
    rw [h1]
    unfold relpath
    rw [ho, hd0, List.nil_append]
    show Except.ok (relpathSegs [] (splitSlash u)) = Except.ok u
    unfold relpathSegs
    rw [commonPrefixLen_nil, if_pos rfl, joinSlash_splitSlash]
  · have hjoin : urljoin st.source_url u = joinSlash (d ++ splitSlash u) := by
      rw [urljoin_relative st.source_url u hb hne hscheme hslash, hs,
        dropLast_single_append, resolveDots_id _ hdots]
    rw [hjoin]
    have hsplit : splitSlash (joinSlash (d ++ splitSlash u)) = d ++ splitSlash u := by
      apply splitSlash_joinSlash
      · intro he
        exact husne (List.append_eq_nil.mp he).2
      · intro s hsm
        rcases List.mem_append.mp hsm with hm1 | hm2
        · exact splitSlash_mem_no_slash st.source_url s
            (by rw [hs]; exact List.mem_append_left _ hm1)
        · exact splitSlash_mem_no_slash u s hm2
    unfold relpath
    rw [hsplit, ho, dropLast_single_append, relpathSegs_append d _ husne,
      joinSlash_splitSlash]

theorem C6_witness : replace_url c6State "img/x.png" = .ok "img/x.png" := by
  have h := C6_same_directory_identity c6State ["", "d"] "a.css" "out.css"
    "img/x.png" rfl rfl rfl rfl (by decide) rfl rfl (by decide)
  exact h

/-- Default mode matching the worked example of the spec. -/
def c5State : FilterState :=
  { replace := .pyFalse, external := .pyFalse,
    replace_dict := none, external_assets := none,
    source_url := "/proj/css/sub/a.css", source_path := "/proj/css/sub/a.css",
    output_url := "/proj/build/out.css", output_path := "/proj/build/out.css",
    env := plainEnv "/proj" none }

/-- C5 counterexample: with source `/proj/css/sub/a.css` and output
`/proj/build/out.css`, the URL `../img/x.png` resolves to
`/proj/css/img/x.png` and rewrites to `../css/img/x.png` — which requires the
leading ascent out of `/proj/build/`, so the claimed result `css/img/x.png`
is wrong. -/
theorem C5_counterexample :
    replace_url c5State "../img/x.png" = .ok "../css/img/x.png" ∧
    ("../css/img/x.png" : String) ≠ "css/img/x.png" :=
  ⟨rfl, by decide⟩

/-- C5 (amended): in default mode every URL takes the rewrite branch, the
result being the relative path from `output_url` to the URL resolved against
`source_url`; on the spec's worked example the result is `../css/img/x.png`
(not `css/img/x.png`). -/
theorem C5_default_mode_formula :
    (∀ (st : FilterState) (url : String),
      st.replace = .pyFalse → st.external = .pyFalse →
      replace_url st url =
        .ok (relpath st.output_url (urljoin st.source_url url))) ∧
    replace_url c5State "../img/x.png" = .ok "../css/img/x.png" := by
  refine ⟨?_, rfl⟩
  intro st url h1 h2
  exact replace_url_default st url h1 h2

theorem C5_witness :
    replace_url c5State "../img/x.png" =
      .ok (relpath c5State.output_url (urljoin c5State.source_url "../img/x.png")) :=
  C5_default_mode_formula.1 c5State "../img/x.png" rfl rfl

/-- C7: in versioned-external mode with a bound resolver that succeeds, the
result is chosen from the base publish URL exactly as the claim's three cases
describe. -/
theorem C7_external_mode_cases (st : FilterState) (url n asset : String)
    (va : Resolver)
    (hrep : st.replace = .pyFalse) (hext : st.external = .name n)
    (hea : st.external_assets = some va)
    (hva : va (urlpathJoin st.source_path url) = .ok asset) :
    (∀ u, st.env.url = some u → u ≠ "" →
      (pyStartswith u "http://" || pyStartswith u "https://" ||
        pyStartswith u "//") = true →
      replace_url st url = .ok (urljoin u asset)) ∧
    (∀ u, st.env.url = some u → u ≠ "" →
      (pyStartswith u "http://" || pyStartswith u "https://" ||
        pyStartswith u "//") = false →
      replace_url st url =
        .ok (relpathto st.env.directory st.output_path (absurl st.env asset))) ∧
    ((st.env.url = none ∨ st.env.url = some "") →
      replace_url st url =
        .ok (relpathto st.env.directory st.output_path asset)) := by
  have hmode : replace_url st url = externalCore st url := by
    apply replace_url_external st url hrep
    rw [hext]
    intro hcon
    cases hcon
  obtain ⟨rep, ext, rd, ea, su, sp, ou, op, env⟩ := st
  obtain ⟨dir, eurl, assets⟩ := env
  dsimp at hmode hea hva ⊢
  subst hea
  refine ⟨?_, ?_, ?_⟩
  · intro u hu hune hcond
    subst hu
    rw [hmode]
    simp [externalCore, hva, hune, hcond]
  · intro u hu hune hcond
    subst hu
    rw [hmode]
    simp [externalCore, hva, hune, hcond]
  · intro hu
    rcases hu with hu | hu <;> subst hu <;> rw [hmode] <;>
      simp [externalCore, hva]

/-- External mode, no base publish URL, fixed versioned path. -/
def c7State : FilterState :=
  { replace := .pyFalse, external := .name "external_assets",
    replace_dict := none,
    external_assets := some (fun _ => .ok "/assets/v1/img/x.png"),
    source_url := "/proj/css/a.css", source_path := "/proj/css/a.css",
    output_url := "/proj/build/out.css", output_path := "/proj/build/out.css",
    env := plainEnv "/proj" none }

theorem C7_witness :
    replace_url c7State "img/x.png" = .ok "../assets/v1/img/x.png" := by
  have h := C7_external_mode_cases c7State "img/x.png" "external_assets"
    "/assets/v1/img/x.png" (fun _ => .ok "/assets/v1/img/x.png")
    rfl rfl rfl rfl
  exact (h.2.2 (Or.inl rfl)).trans (by rfl)

/-- External mode whose resolver always fails. -/
def c8State : FilterState :=
  { replace := .pyFalse, external := .name "external_assets",
    replace_dict := none,
    external_assets := some (fun _ => .error (.resolverError "asset missing")),
    source_url := "/proj/css/a.css", source_path := "/proj/css/a.css",
    output_url := "/proj/build/out.css", output_path := "/proj/build/out.css",
    env := plainEnv "/proj" none }

/-- Substring test, used only to state whether an error message mentions a
string. -/
def hasSubstring (hay needle : List Char) : Bool :=
  needle.isPrefixOf hay ||
    match hay with
    | [] => false
    | _ :: t => hasSubstring t needle

/-- C8 counterexample: the resolver's failure comes back exactly as raised —
the propagated error mentions neither the source file nor the URL, so nothing
is attached for diagnostics. -/
theorem C8_counterexample :
    replace_url c8State "img/i.png" = .error (.resolverError "asset missing") ∧
    hasSubstring "asset missing".data "a.css".data = false ∧
    hasSubstring "asset missing".data "img/i.png".data = false :=
  ⟨rfl, by decide, by decide⟩

/-- C8 (amended): in versioned-external mode a resolver failure propagates to
the caller unmodified; no diagnostic information is added. -/
theorem C8_resolver_error_propagates (st : FilterState) (url : String)
    (va : Resolver) (e : PyErr)
    (hrep : st.replace = .pyFalse) (hext : st.external ≠ .pyFalse)
    (hea : st.external_assets = some va)
    (hb : va (urlpathJoin st.source_path url) = .error e) :
    replace_url st url = .error e := by
  rw [replace_url_external st url hrep hext]
  obtain ⟨rep, ext, rd, ea, su, sp, ou, op, env⟩ := st
  dsimp at hea hb ⊢
  subst hea
  simp [externalCore, hb]

theorem C8_witness :
    replace_url c8State "img/i.png" = .error (.resolverError "asset missing") := by
  have h := C8_resolver_error_propagates c8State "img/i.png"
    (fun _ => .error (.resolverError "asset missing"))
    (.resolverError "asset missing") rfl (by decide) rfl rfl
  exact h

/-- Default mode used to exercise the always-false absolute test. -/
def c9State : FilterState :=
  { replace := .pyFalse, external := .pyFalse,
    replace_dict := none, external_assets := none,
    source_url := "/proj/css/a.css", source_path := "/proj/css/a.css",
    output_url := "/proj/build/out.css", output_path := "/proj/build/out.css",
    env := plainEnv "/proj" none }

/-- C9: `_is_abs_url` returns `False` for every string (nothing starts with
both `/` and `http://`/`https://`), so in default and versioned-external
modes every URL — scheme-qualified ones included — takes the non-absolute
rewriting branch. -/
theorem C9_is_abs_url_always_false (url : String) :
    is_abs_url url = false ∧
    (∀ st : FilterState, st.replace = .pyFalse → st.external = .pyFalse →
      replace_url st url =
        .ok (relpath st.output_url (urljoin st.source_url url))) ∧
    (∀ st : FilterState, st.replace = .pyFalse → st.external ≠ .pyFalse →
      replace_url st url = externalCore st url) := by
  refine ⟨is_abs_url_eq_false url, ?_, ?_⟩
  · intro st h1 h2
    exact replace_url_default st url h1 h2
  · intro st h1 h2
    exact replace_url_external st url h1 h2

theorem C9_witness :
    is_abs_url "http://cdn.example.com/x.png" = false ∧
    replace_url c9State "http://cdn.example.com/x.png" =
      .ok "http://cdn.example.com/x.png" := by
  have h := C9_is_abs_url_always_false "http://cdn.example.com/x.png"
  exact ⟨h.1, (h.2.1 c9State rfl rfl).trans (by rfl)⟩

/-- C10: constructed with `replace = None`, `input` skips building
`replace_dict` (its guard excludes `None`) while `replace_url` still takes the
relocation branch (its guard only excludes `False`), so every rewrite fails
on the absent `replace_dict` attribute. -/
theorem C10_none_replace_attribute_error (st : FilterState) (url : String)
    (hrep : st.replace = .pyNone) (hdict : st.replace_dict = none) :
    replace_url (input st) url = .error (.attributeError "replace_dict") := by
  obtain ⟨rep, ext, rd, ea, su, sp, ou, op, env⟩ := st
  dsimp at hrep hdict
  subst hrep
  subst hdict
  cases ext <;> rfl

/-- Filter state as constructed with `replace = None`. -/
def c10State : FilterState :=
  { replace := .pyNone, external := .pyFalse,
    replace_dict := none, external_assets := none,
    source_url := "/a.css", source_path := "/a.css",
    output_url := "/out.css", output_path := "/out.css",
    env := plainEnv "/proj" none }

theorem C10_witness :
    replace_url (input c10State) "x.png" =
      .error (.attributeError "replace_dict") := by
  have h := C10_none_replace_attribute_error c10State "x.png" rfl rfl
  exact h

end CssRewrite
